import Mathlib

/-!
# Vibe Navigator: verification of the specified behaviour against the source

Shallow embedding of the three source files of the repository:

* `ai_summarizer.py` — `summarize_reviews` (LLM summarizer with error payloads);
* `main.py` — the SQLite-backed FastAPI service: tables `places`, `reviews`,
  `vibe_summaries`, the background task `scrape_and_store_reviews`, the read
  endpoints, the scrape triggers and the naive `LIKE` search;
* `gmaps_scraper.py` — the scraper CLI, of which the Reddit path's credential
  guard is modelled.

External effects (the OpenAI network call, the scraper routines, the Reddit
API) are parameters of the embedded functions; database state is passed
explicitly.  Machine floats (`latitude`/`longitude`) are carried as `Option Rat`
and never computed with.
-/

/-! ## JSON values and the Python `json` module

`json.dumps` / `json.loads` are the Python standard library.  The fragment of
JSON that this program produces and consumes consists of strings, arrays and
objects, so `Json` has exactly those constructors.  `dumps` follows the default
Python encoder: separators `", "` and `": "`, strings quoted with `"` and the
special characters escaped.  (The encoder's `\uXXXX` escapes for other control
and non-ASCII characters are elided; they do not affect any claim, which only
concern the shape of the output and the round trip on tag lists.) -/

inductive Json where
  | str (s : String) : Json
  | arr (js : List Json) : Json
  | obj (kvs : List (String × Json)) : Json

/-- Escaping of a single character inside a JSON string literal, as the
Python encoder performs it. -/
def escapeChar (c : Char) : List Char :=
  if c = '"' then ['\\', '"']
  else if c = '\\' then ['\\', '\\']
  else if c = '\n' then ['\\', 'n']
  else if c = '\t' then ['\\', 't']
  else if c = '\r' then ['\\', 'r']
  else [c]

mutual

/-- The characters of `json.dumps` applied to a value (default separators). -/
def dumpsChars : Json → List Char
  | .str s => '"' :: (s.data.flatMap escapeChar ++ ['"'])
  | .arr js => '[' :: (dumpsArr js ++ [']'])
  | .obj kvs => '{' :: (dumpsObjChars kvs ++ ['}'])

/-- Array elements joined by `", "`. -/
def dumpsArr : List Json → List Char
  | [] => []
  | [j] => dumpsChars j
  | j :: js => dumpsChars j ++ ',' :: ' ' :: dumpsArr js

/-- Object members joined by `", "`. -/
def dumpsObjChars : List (String × Json) → List Char
  | [] => []
  | [kv] => dumpsKV kv
  | kv :: kvs => dumpsKV kv ++ ',' :: ' ' :: dumpsObjChars kvs

/-- One `"key": value` member. -/
def dumpsKV : String × Json → List Char
  | (k, v) => ('"' :: (k.data.flatMap escapeChar ++ ['"'])) ++ ':' :: ' ' :: dumpsChars v

end

/-- `json.dumps`. -/
def Json.dumps (j : Json) : String := ⟨dumpsChars j⟩

/-- `d.get(key, default)` on the result of `json.loads`: returns the value of
the key (or the default) when the receiver is a JSON object, and `none` when
the receiver is not an object — in Python, calling `.get` on a non-`dict`
raises `AttributeError`, which the caller's handler catches. -/
def dictGet (j : Json) (key : String) (default : Json) : Option Json :=
  match j with
  | .obj kvs => some (((kvs.find? (fun kv => kv.1 == key)).map Prod.snd).getD default)
  | _ => none

/-- A string `s` parses as a JSON object whose keys are exactly `ks`, in order:
there is a JSON object that the encoder prints as `s` with that key list. -/
def parsesAsJsonObjectWithKeys (s : String) (ks : List String) : Prop :=
  ∃ kvs : List (String × Json), Json.dumps (Json.obj kvs) = s ∧ kvs.map Prod.fst = ks

/-- Inverse of `escapeChar` on the escape codes the encoder emits. -/
def unescapeChar (c : Char) : Option Char :=
  if c = '"' then some '"'
  else if c = '\\' then some '\\'
  else if c = 'n' then some '\n'
  else if c = 't' then some '\t'
  else if c = 'r' then some '\r'
  else none

/-- Scanner state while reading a JSON array of strings, one character at a
time.  `cur` holds the reversed characters of the string being read, `acc`
the strings already read, in reverse order. -/
inductive ScanState where
  | inStr (cur : List Char) (acc : List String) : ScanState
  | esc (cur : List Char) (acc : List String) : ScanState
  | afterStr (acc : List String) : ScanState
  | afterComma (acc : List String) : ScanState
  | afterSpace (acc : List String) : ScanState
  | done (res : List String) : ScanState
  | failed : ScanState

/-- One character of the scan. -/
def scanStep (st : ScanState) (c : Char) : ScanState :=
  match st with
  | .inStr cur acc =>
    if c = '\\' then .esc cur acc
    else if c = '"' then .afterStr (String.mk cur.reverse :: acc)
    else .inStr (c :: cur) acc
  | .esc cur acc =>
    match unescapeChar c with
    | some u => .inStr (u :: cur) acc
    | none => .failed
  | .afterStr acc =>
    if c = ']' then .done acc.reverse
    else if c = ',' then .afterComma acc
    else .failed
  | .afterComma acc => if c = ' ' then .afterSpace acc else .failed
  | .afterSpace acc => if c = '"' then .inStr [] acc else .failed
  | .done _ => .failed
  | .failed => .failed

/-- Run the scanner over a character stream. -/
def runScan (l : List Char) (st : ScanState) : ScanState := l.foldl scanStep st

/-- `json.loads` restricted to (and composed with the `List[str]` response
validation of) lists of strings: the read path of the `mood_tags` /
`key_themes` columns. -/
def parseStringArray (s : String) : Option (List String) :=
  match s.data with
  | [] => none
  | c0 :: rest =>
    if c0 = '[' then
      if rest = [']'] then some []
      else
        match rest with
        | [] => none
        | c1 :: rest' =>
          if c1 = '"' then
            match runScan rest' (ScanState.inStr [] []) with
            | ScanState.done res => some res
            | _ => none
          else none
    else none

/-! ### Round trip of the serialization used for tag lists -/

/-- The character stream that follows a string item inside a dumped string
array: either the closing bracket, or the `", "` separator and the next item. -/
def tailChars : List String → List Char
  | [] => [']']
  | y :: ys => ',' :: ' ' :: '"' :: (y.data.flatMap escapeChar ++ '"' :: tailChars ys)

lemma runScan_cons (c : Char) (l : List Char) (st : ScanState) :
    runScan (c :: l) st = runScan l (scanStep st c) := rfl

lemma scanStep_inStr_backslash (cur : List Char) (acc : List String) :
    scanStep (ScanState.inStr cur acc) '\\' = ScanState.esc cur acc := by
  simp [scanStep]

lemma scanStep_inStr_quote (cur : List Char) (acc : List String) :
    scanStep (ScanState.inStr cur acc) '"' = ScanState.afterStr (String.mk cur.reverse :: acc) := by
  simp [scanStep]

lemma scanStep_inStr_plain (cur : List Char) (acc : List String) (c : Char)
    (h1 : c ≠ '\\') (h2 : c ≠ '"') :
    scanStep (ScanState.inStr cur acc) c = ScanState.inStr (c :: cur) acc := by
  simp [scanStep, h1, h2]

lemma scanStep_esc (cur : List Char) (acc : List String) (c u : Char)
    (h : unescapeChar c = some u) :
    scanStep (ScanState.esc cur acc) c = ScanState.inStr (u :: cur) acc := by
  simp [scanStep, h]

lemma runScan_escaped (l : List Char) : ∀ (cur : List Char) (acc : List String) (rest : List Char),
    runScan (l.flatMap escapeChar ++ rest) (ScanState.inStr cur acc)
      = runScan rest (ScanState.inStr (l.reverse ++ cur) acc) := by
  induction l with
  | nil => intro cur acc rest; simp
  | cons c l ih =>
    intro cur acc rest
    rw [List.flatMap_cons, List.append_assoc]
    by_cases h1 : c = '"'
    · subst h1
      rw [show escapeChar '"' = ['\\', '"'] from rfl]
      simp only [List.cons_append, List.nil_append]
      rw [runScan_cons, runScan_cons, scanStep_inStr_backslash,
        scanStep_esc cur acc '"' '"' (by simp [unescapeChar]), ih]
      simp
    · by_cases h2 : c = '\\'
      · subst h2
        rw [show escapeChar '\\' = ['\\', '\\'] by simp [escapeChar]]
        simp only [List.cons_append, List.nil_append]
        rw [runScan_cons, runScan_cons, scanStep_inStr_backslash,
          scanStep_esc cur acc '\\' '\\' (by simp [unescapeChar]), ih]
        simp
      · by_cases h3 : c = '\n'
        · subst h3
          rw [show escapeChar '\n' = ['\\', 'n'] by simp [escapeChar]]
          simp only [List.cons_append, List.nil_append]
          rw [runScan_cons, runScan_cons, scanStep_inStr_backslash,
            scanStep_esc cur acc 'n' '\n' (by simp [unescapeChar]), ih]
          simp
        · by_cases h4 : c = '\t'
          · subst h4
            rw [show escapeChar '\t' = ['\\', 't'] by simp [escapeChar]]
            simp only [List.cons_append, List.nil_append]
            rw [runScan_cons, runScan_cons, scanStep_inStr_backslash,
              scanStep_esc cur acc 't' '\t' (by simp [unescapeChar]), ih]
            simp
          · by_cases h5 : c = '\r'
            · subst h5
              rw [show escapeChar '\r' = ['\\', 'r'] by simp [escapeChar]]
              simp only [List.cons_append, List.nil_append]
              rw [runScan_cons, runScan_cons, scanStep_inStr_backslash,
                scanStep_esc cur acc 'r' '\r' (by simp [unescapeChar]), ih]
              simp
            · rw [show escapeChar c = [c] by simp [escapeChar, h1, h2, h3, h4, h5]]
              simp only [List.cons_append, List.nil_append]
              rw [runScan_cons, scanStep_inStr_plain cur acc c h2 h1, ih]
              simp

lemma stringMkData (s : String) : String.mk s.data = s := rfl

lemma runScan_items : ∀ (xs : List String) (x : String) (acc : List String),
    runScan (x.data.flatMap escapeChar ++ '"' :: tailChars xs) (ScanState.inStr [] acc)
      = ScanState.done (acc.reverse ++ x :: xs) := by
  intro xs
  induction xs with
  | nil =>
    intro x acc
    rw [runScan_escaped, runScan_cons, List.append_nil, scanStep_inStr_quote,
      List.reverse_reverse, stringMkData]
    rw [show tailChars [] = [']'] from rfl]
    rw [runScan_cons]
    rw [show scanStep (ScanState.afterStr (x :: acc)) ']'
          = ScanState.done (x :: acc).reverse by simp [scanStep]]
    simp [runScan]
  | cons y ys ih =>
    intro x acc
    rw [runScan_escaped, runScan_cons, List.append_nil, scanStep_inStr_quote,
      List.reverse_reverse, stringMkData]
    rw [show tailChars (y :: ys)
          = ',' :: ' ' :: '"' :: (y.data.flatMap escapeChar ++ '"' :: tailChars ys) from rfl]
    rw [runScan_cons, runScan_cons, runScan_cons]
    rw [show scanStep (ScanState.afterStr (x :: acc)) ','
          = ScanState.afterComma (x :: acc) by simp [scanStep]]
    rw [show scanStep (ScanState.afterComma (x :: acc)) ' '
          = ScanState.afterSpace (x :: acc) by simp [scanStep]]
    rw [show scanStep (ScanState.afterSpace (x :: acc)) '"'
          = ScanState.inStr [] (x :: acc) by simp [scanStep]]
    rw [ih]
    simp

lemma dumpsArr_str : ∀ (xs : List String) (x : String),
    dumpsArr ((x :: xs).map Json.str) ++ [']']
      = '"' :: (x.data.flatMap escapeChar ++ '"' :: tailChars xs) := by
  intro xs
  induction xs with
  | nil =>
    intro x
    rw [show ((x :: ([] : List String)).map Json.str) = [Json.str x] from rfl]
    rw [show dumpsArr [Json.str x] = dumpsChars (Json.str x) from rfl]
    rw [show dumpsChars (Json.str x) = '"' :: (x.data.flatMap escapeChar ++ ['"']) from rfl]
    rw [show tailChars [] = [']'] from rfl]
    simp
  | cons y ys ih =>
    intro x
    rw [show ((x :: y :: ys).map Json.str)
          = Json.str x :: Json.str y :: ys.map Json.str from rfl]
    rw [show dumpsArr (Json.str x :: Json.str y :: ys.map Json.str)
          = dumpsChars (Json.str x) ++ ',' :: ' ' :: dumpsArr (Json.str y :: ys.map Json.str)
          from rfl]
    have h := ih y
    rw [show ((y :: ys).map Json.str) = Json.str y :: ys.map Json.str from rfl] at h
    rw [show tailChars (y :: ys)
          = ',' :: ' ' :: '"' :: (y.data.flatMap escapeChar ++ '"' :: tailChars ys) from rfl]
    rw [show dumpsChars (Json.str x) = '"' :: (x.data.flatMap escapeChar ++ ['"']) from rfl]
    rw [show ('"' :: (x.data.flatMap escapeChar ++ ['"'])
               ++ ',' :: ' ' :: dumpsArr (Json.str y :: ys.map Json.str)) ++ [']']
          = '"' :: (x.data.flatMap escapeChar
               ++ '"' :: ',' :: ' ' :: (dumpsArr (Json.str y :: ys.map Json.str) ++ [']'])) by
      simp]
    rw [h]

/-- The write path stores `json.dumps` of the tag list; the read path applies
`json.loads`.  This round trip is the identity on lists of strings. -/
lemma parseStringArray_dumps (xs : List String) :
    parseStringArray (Json.dumps (Json.arr (xs.map Json.str))) = some xs := by
  cases xs with
  | nil => rfl
  | cons x xs =>
    have hd : (Json.dumps (Json.arr ((x :: xs).map Json.str))).data
        = '[' :: ('"' :: (x.data.flatMap escapeChar ++ '"' :: tailChars xs)) := by
      rw [show (Json.dumps (Json.arr ((x :: xs).map Json.str))).data
            = dumpsChars (Json.arr ((x :: xs).map Json.str)) from rfl]
      rw [show dumpsChars (Json.arr ((x :: xs).map Json.str))
            = '[' :: (dumpsArr ((x :: xs).map Json.str) ++ [']']) from rfl]
      rw [dumpsArr_str]
    rw [parseStringArray, hd]
    have hne : ('"' :: (x.data.flatMap escapeChar ++ '"' :: tailChars xs)) ≠ [']'] := by
      intro hcontra
      have := List.head_eq_of_cons_eq hcontra
      exact absurd this (by decide)
    simp only [if_pos rfl, if_neg hne, if_true]
    rw [runScan_items]
    simp

/-- Every encoder output starts with a quote, a bracket or a brace.  Used to
show that arbitrary text (a verbatim model reply) need not be in the range of
the encoder. -/
lemma dumpsChars_head : ∀ j : Json,
    (dumpsChars j).head? = some '"' ∨ (dumpsChars j).head? = some '['
      ∨ (dumpsChars j).head? = some '{' := by
  intro j
  cases j with
  | str s => left; rfl
  | arr js => right; left; rfl
  | obj kvs => right; right; rfl

/-! ## `ai_summarizer.py`: `summarize_reviews`

The function reads `openai.api_key` (an optional environment value, falsy when
unset or empty), builds a prompt from the review texts and performs one network
call whose outcome — the raw reply text, or a raised exception — is external;
it is passed as the `net` parameter. -/

/-- Python truthiness of an optional string (`if not openai.api_key`,
`if google_maps_url`, `if city` …): `None` and `""` are falsy. -/
def truthy : Option String → Bool
  | none => false
  | some s => !s.isEmpty

/-- Outcome of the `openai.ChatCompletion.acreate` call: the reply content, or
the message of a raised exception. -/
inductive NetOutcome where
  | ok (content : String) : NetOutcome
  | raised (msg : String) : NetOutcome

/-- Returned string together with whether the network call was attempted. -/
structure SummarizeResult where
  output : String
  networkCalled : Bool
deriving DecidableEq

/-- The structured error payload returned when the API key is missing. -/
def configErrorPayload : Json :=
  Json.obj [("summary", Json.str "AI Summarizer is not configured. Missing API Key."),
            ("mood_tags", Json.arr [Json.str "error"]),
            ("key_themes", Json.arr [Json.str "configuration"])]

/-- The structured error payload returned when the network call raises `e`. -/
def apiErrorPayload (e : String) : Json :=
  Json.obj [("summary", Json.str ("An error occurred while generating the AI summary: " ++ e)),
            ("mood_tags", Json.arr [Json.str "error"]),
            ("key_themes", Json.arr [Json.str "api_failure"])]

/-- The prompt joins the review texts with a bullet separator; it only feeds
the outbound request and never influences the shape of the return value. -/
def reviews_text (reviews : List String) : String :=
  String.intercalate "\n- " reviews

/-- `summarize_reviews(reviews)`: short-circuits on a falsy API key; otherwise
returns the raw reply on success and the dumped error payload when the call
raises.  `net` maps the joined review text to the outcome of the one network
call.  The `try` block encloses both the call and the `return`, so the
function never raises (totality of this definition). -/
def summarize_reviews (apiKey : Option String) (reviews : List String)
    (net : String → NetOutcome) : SummarizeResult :=
  if truthy apiKey then
    match net (reviews_text reviews) with
    | .ok content => ⟨content, true⟩
    | .raised e => ⟨Json.dumps (apiErrorPayload e), true⟩
  else
    ⟨Json.dumps configErrorPayload, false⟩

/-! ## `main.py`: data model

The three tables created by `init_db`.  `AUTOINCREMENT` ids are `length + 1`
(rows are never deleted).  The `rating`/`date` columns of `reviews` are always
inserted as `NULL` by the scrape flow and no claim mentions them, so they are
omitted from `ReviewRow`. -/

/-- A row of `places`. -/
structure PlaceRow where
  id : Nat
  name : String
  city : String
  category : String
  address : Option String
  latitude : Option Rat
  longitude : Option Rat
deriving DecidableEq

/-- A row of `reviews`. -/
structure ReviewRow where
  place_id : Nat
  source : String
  content : String
deriving DecidableEq

/-- A row of `vibe_summaries` (`place_id` carries a UNIQUE constraint in the
schema; the tag columns are TEXT holding serialized JSON). -/
structure VibeRow where
  id : Nat
  place_id : Nat
  summary : String
  mood_tags : String
  key_themes : String
deriving DecidableEq

/-- The database file. -/
structure DB where
  places : List PlaceRow
  reviews : List ReviewRow
  vibe_summaries : List VibeRow
deriving DecidableEq

/-! ## `main.py`: the background scrape-and-store task

`scrape_and_store_reviews` looks up the global names
`scrape_google_maps_reviews` and `scrape_tripadvisor_reviews` at call time.
`Env` records which of those names are bound to extractor functions; an
extractor may itself raise (`Except.error`).  In the module as shipped,
neither name is defined or imported — the imports at `main.py:13` bring in
`scrape_gmaps` and `scrape_reddit`, which are never called — so the lookup
raises `NameError`.  `mainEnv` is that shipped environment. -/

structure Env where
  scrape_google_maps_reviews : Option (String → Except String (List String))
  scrape_tripadvisor_reviews : Option (String → Except String (List String))

/-- The environment of the shipped `main.py`: both extractor names unbound. -/
def mainEnv : Env := ⟨none, none⟩

/-- One `if url:` block of the task: on a truthy URL, call the named extractor
and insert each returned text as a review row, accumulating the texts.  A
`NameError` (unbound name) or an exception raised by the extractor is caught
by the per-source handler and leaves both the table and the accumulator
unchanged. -/
def scrapeSource (st : DB × List String) (place_id : Nat) (srcLabel : String)
    (url : Option String) (extractor : Option (String → Except String (List String))) :
    DB × List String :=
  if truthy url then
    match extractor with
    | none => st
    | some f =>
      match f (url.getD "") with
      | .error _ => st
      | .ok texts =>
        ({ st.1 with reviews := st.1.reviews ++ texts.map (fun t => ⟨place_id, srcLabel, t⟩) },
          st.2 ++ texts)
  else st

/-- The review-collection phase of the task: Google Maps first, then
TripAdvisor, starting from an empty accumulator. -/
def collectPhase (env : Env) (db : DB) (place_id : Nat)
    (google_maps_url tripadvisor_url : Option String) : DB × List String :=
  scrapeSource
    (scrapeSource (db, []) place_id "Google Maps" google_maps_url env.scrape_google_maps_reviews)
    place_id "TripAdvisor" tripadvisor_url env.scrape_tripadvisor_reviews

/-- The upsert block of the task (`main.py:104-116`): `SELECT` for an existing
`vibe_summaries` row for the place; `UPDATE` it if present, `INSERT` a new row
otherwise. -/
def upsertVibe (db : DB) (place_id : Nat) (s mt kt : String) : DB :=
  if db.vibe_summaries.any (fun r => r.place_id == place_id) then
    { db with vibe_summaries := db.vibe_summaries.map (fun r =>
        if r.place_id == place_id then { r with summary := s, mood_tags := mt, key_themes := kt }
        else r) }
  else
    { db with vibe_summaries :=
        db.vibe_summaries ++ [⟨db.vibe_summaries.length + 1, place_id, s, mt, kt⟩] }

/-- The summarization phase of the task: skipped when no review was collected;
otherwise the summarizer is called, its reply parsed as JSON (`summaryOracle`
models `json.loads` applied to the reply — `none` is a `JSONDecodeError`), the
three fields are read with `.get`, the tag lists re-serialized with
`json.dumps` and the summary row upserted.  Any exception on this path (parse
failure, `.get` on a non-object, binding a non-string summary parameter) is
caught by the task's outer handler, after the review inserts were already
committed. -/
def summarizePhase (summaryOracle : List String → Option Json) (db : DB)
    (place_id : Nat) (all_reviews : List String) : DB :=
  if all_reviews.isEmpty then db
  else
    match summaryOracle all_reviews with
    | none => db
    | some j =>
      match dictGet j "summary" (Json.str "No summary provided."),
            dictGet j "mood_tags" (Json.arr []),
            dictGet j "key_themes" (Json.arr []) with
      | some st, some mt, some kt =>
        match st with
        | Json.str summary_text =>
          upsertVibe db place_id summary_text (Json.dumps mt) (Json.dumps kt)
        | _ => db
      | _, _, _ => db

/-- `scrape_and_store_reviews` (`main.py:53-127`).  The `place_name` argument
only feeds log lines and is omitted. -/
def scrape_and_store_reviews (env : Env) (summaryOracle : List String → Option Json)
    (db : DB) (place_id : Nat) (google_maps_url tripadvisor_url : Option String) : DB :=
  let st := collectPhase env db place_id google_maps_url tripadvisor_url
  summarizePhase summaryOracle st.1 place_id st.2

/-! ## `main.py`: endpoints

Handlers are modelled as functions of the database; an `Except.error s` is an
`HTTPException` with status `s`. -/

/-- `POST /places/` and the insert half of `POST /scrape/place-and-reviews`
(`create_place`, `main.py:263-274`): insert the row (the schema only demands
NOT NULL for name/city/category; empty strings are accepted) and return the
generated id. -/
def create_place (db : DB) (name city category : String) (address : Option String)
    (latitude longitude : Option Rat) : DB × Nat :=
  ({ db with places := db.places
      ++ [⟨db.places.length + 1, name, city, category, address, latitude, longitude⟩] },
    db.places.length + 1)

/-- `GET /places/{place_id}` (`main.py:276-283`). -/
def get_place (db : DB) (place_id : Nat) : Except Nat PlaceRow :=
  match db.places.find? (fun p => p.id == place_id) with
  | none => Except.error 404
  | some p => Except.ok p

/-- `GET /places/{place_id}/reviews` (`main.py:285-290`): returns the rows for
the place with no existence check on the place itself. -/
def get_reviews (db : DB) (place_id : Nat) : Except Nat (List ReviewRow) :=
  Except.ok (db.reviews.filter (fun r => r.place_id == place_id))

/-- The response of `GET /places/{place_id}/vibe` after deserializing the tag
columns. -/
structure VibeOut where
  id : Nat
  place_id : Nat
  summary : String
  mood_tags : List String
  key_themes : List String
deriving DecidableEq

/-- `GET /places/{place_id}/vibe` (`main.py:292-307`): 404 when no summary row
exists; otherwise `json.loads` both tag columns (a parse or response-model
validation failure is a 500). -/
def get_vibe_summary (db : DB) (place_id : Nat) : Except Nat VibeOut :=
  match db.vibe_summaries.find? (fun r => r.place_id == place_id) with
  | none => Except.error 404
  | some row =>
    match parseStringArray row.mood_tags, parseStringArray row.key_themes with
    | some mt, some kt => Except.ok ⟨row.id, row.place_id, row.summary, mt, kt⟩
    | _, _ => Except.error 500

/-- The body of `POST /scrape/reviews`, which doubles as the parameter record
of the background task it enqueues. -/
structure ScrapeRequest where
  place_id : Nat
  place_name : String
  google_maps_url : Option String
  tripadvisor_url : Option String
deriving DecidableEq

/-- `POST /scrape/reviews` (`main.py:133-153`): 404 before anything is
enqueued when the place does not exist; otherwise the task is enqueued and a
success response returned.  The result carries the list of enqueued background
tasks. -/
def scrape_reviews_endpoint (db : DB) (req : ScrapeRequest) :
    Except Nat (List ScrapeRequest) :=
  if db.places.any (fun p => p.id == req.place_id) then Except.ok [req]
  else Except.error 404

/-- Database states reachable through the API.  Places are created by
`POST /places/` and `POST /scrape/place-and-reviews` (same insert); the
background task runs only for a place id that existed when it was enqueued
(`POST /scrape/reviews` 404s first; the create-and-scrape endpoint creates the
place first) and rows are never deleted, so the place still exists when the
task runs. -/
inductive Reachable : DB → Prop where
  | init : Reachable ⟨[], [], []⟩
  | create (db : DB) (name city category : String) (address : Option String)
      (latitude longitude : Option Rat) :
      Reachable db →
      Reachable (create_place db name city category address latitude longitude).1
  | scrape (db : DB) (env : Env) (summaryOracle : List String → Option Json)
      (place_id : Nat) (g t : Option String) :
      Reachable db → db.places.any (fun p => p.id == place_id) = true →
      Reachable (scrape_and_store_reviews env summaryOracle db place_id g t)

/-! ## `main.py`: `GET /search/`

The query builds one SQL statement: `places LEFT JOIN vibe_summaries` with,
when the `query` parameter is truthy, the disjunction of five `LIKE` tests of
the pattern `'%' + query.lower() + '%'` against `LOWER(column)`.  Three
distinct case conventions meet here and are modelled separately:
`str.lower()` on the query is Unicode-aware — it is the Python runtime, not
code of this repository, so it is the `pyLower` parameter, which the theorems
pin to ASCII lowering on ASCII input (where its behaviour is fixed); SQLite
`LOWER` on the columns folds ASCII only, which is exactly Lean's
`Char.toLower`; and SQLite `LIKE` itself compares characters
case-insensitively for ASCII and byte-exactly otherwise, i.e. it folds both
sides with the ASCII fold at each comparison. -/

/-- SQLite `LOWER` applied to a column: ASCII-only lowercasing, which is
exactly Lean's `Char.toLower`. -/
def lowerData (s : String) : List Char := s.data.map Char.toLower

/-- `anySuffix f t` tests `f` on every suffix of `t` (the `%` wildcard). -/
def anySuffix (f : List Char → Bool) : List Char → Bool
  | [] => f []
  | c :: ts => f (c :: ts) || anySuffix f ts

/-- SQL `LIKE` pattern matching (no ESCAPE clause, as in the source's query):
`%` matches any run, `_` any one character, and an ordinary pattern character
matches a text character up to ASCII case — SQLite's default `LIKE` is
case-insensitive for ASCII and byte-exact beyond it. -/
def likeMatch : List Char → List Char → Bool
  | [], t => t.isEmpty
  | p :: ps, t =>
    if p = '%' then anySuffix (likeMatch ps) t
    else if p = '_' then
      match t with
      | [] => false
      | _ :: ts => likeMatch ps ts
    else
      match t with
      | [] => false
      | c :: ts => (p.toLower == c.toLower) && likeMatch ps ts

/-- The pattern `f"%{query.lower()}%"` of `main.py:334`; `pyLower` is
Python's Unicode-aware `str.lower()` on one character. -/
def likePatternOf (pyLower : Char → Char) (q : String) : List Char :=
  '%' :: (q.data.map pyLower ++ ['%'])

/-- One `LOWER(column) LIKE ?` test; a NULL column (place without summary row,
from the LEFT JOIN) compares to NULL and is not selected. -/
def colLike (pyLower : Char → Char) (q : String) (col : Option String) : Bool :=
  match col with
  | none => false
  | some s => likeMatch (likePatternOf pyLower q) (lowerData s)

/-- The row set of `places p LEFT JOIN vibe_summaries v ON p.id = v.place_id`. -/
def leftJoinRows (db : DB) : List (PlaceRow × Option VibeRow) :=
  db.places.flatMap (fun p =>
    match db.vibe_summaries.filter (fun v => v.place_id == p.id) with
    | [] => [(p, none)]
    | vs => vs.map (fun v => (p, some v)))

/-- The WHERE clause of the search statement for one joined row (`WHERE 1=1`
plus the optional city and query conditions; both `if city:` and `if query:`
are Python truthiness). -/
def rowCond (pyLower : Char → Char) (q : String) (city : Option String)
    (pv : PlaceRow × Option VibeRow) : Bool :=
  (if truthy city then colLike pyLower (city.getD "") (some pv.1.city) else true) &&
  (if q.isEmpty then true
   else colLike pyLower q (some pv.1.name) || colLike pyLower q (some pv.1.category) ||
        colLike pyLower q (pv.2.map (fun v => v.summary)) ||
        colLike pyLower q (pv.2.map (fun v => v.mood_tags)) ||
        colLike pyLower q (pv.2.map (fun v => v.key_themes)))

/-- `GET /search/` (`main.py:309-342`): the selected place rows, in table
order. -/
def search_places (pyLower : Char → Char) (db : DB) (q : String)
    (city : Option String) : List PlaceRow :=
  ((leftJoinRows db).filter (rowCond pyLower q city)).map Prod.fst

/-- Prefix test up to ASCII letter case (the only case folding the endpoint
performs anywhere). -/
def startsWithChars : List Char → List Char → Bool
  | [], _ => true
  | _ :: _, [] => false
  | a :: as, b :: bs => (a.toLower == b.toLower) && startsWithChars as bs

/-- `needle` occurs contiguously in `hay`, up to ASCII letter case. -/
def isSubstr (needle : List Char) : List Char → Bool
  | [] => startsWithChars needle []
  | c :: hs => startsWithChars needle (c :: hs) || isSubstr needle hs

/-- The matching condition of one place as the amended claim C6 words it: the
query occurs, up to ASCII letter case, as a substring of the name or
category, or of the associated summary row's summary text or serialized tag
lists; a place with no summary row can match only on name or category.
ASCII case is the only case-insensitivity the endpoint provides: SQLite
`LOWER` and `LIKE` fold ASCII only, so for non-ASCII text the comparison is
byte-exact. -/
def claimMatchCond (V : List VibeRow) (q : String) (p : PlaceRow) : Bool :=
  isSubstr q.data p.name.data ||
  isSubstr q.data p.category.data ||
  (match V.find? (fun v => v.place_id == p.id) with
   | some v =>
      isSubstr q.data v.summary.data ||
      isSubstr q.data v.mood_tags.data ||
      isSubstr q.data v.key_themes.data
   | none => false)

/-- The result set as the amended claim C6 words it. -/
def claimSearchMatches (db : DB) (q : String) : List PlaceRow :=
  db.places.filter (claimMatchCond db.vibe_summaries q)

/-! ## `gmaps_scraper.py`: the Reddit CLI path

`scrape_reddit(query, limit)` guards on the module-level credential constants:
left at the template placeholders (`"YOUR_CLIENT_ID"`/`"YOUR_CLIENT_SECRET"`,
i.e. not filled in), it prints an error and calls `sys.exit(1)` before
constructing the PRAW client or searching anything.  The credentials are
parameters here; the PRAW API is the `RedditApi` oracle. -/

structure RedditComment where
  body : String
  author : Option String

structure RedditPost where
  title : String
  score : Int
  permalink : String
  comments : List RedditComment

/-- The PRAW surface used: search a subreddit for posts matching the query up
to the limit; `none` models an exception while accessing the subreddit. -/
structure RedditApi where
  search : String → String → Nat → Option (List RedditPost)

/-- Observable side effects of the CLI path, in order. -/
inductive RedditEffect where
  | initClient : RedditEffect
  | searchSub (name : String) : RedditEffect
deriving DecidableEq

/-- One unified output record (shared CSV shape of both scraper paths). -/
structure RedditRecord where
  source : String
  query : String
  location_name : String
  review_text : String
  review_author : String
  location_rating : String
  location_address : String
  url : String

/-- Terminal outcome of the CLI path. -/
inductive CliOutcome where
  | exited (code : Nat) : CliOutcome
  | crashed : CliOutcome
  | completed (records : List RedditRecord) : CliOutcome

/-- The subreddit heuristic: the text after the last `" in "` of the lowered
query, spaces removed; `"all"` otherwise.  `query.lower()` is modelled with
the ASCII fold here; the deviation for non-ASCII queries sits past the
credential guard and no claim depends on this heuristic. -/
def subredditNameOf (query : String) : String :=
  let parts := (String.mk (lowerData query)).splitOn " in "
  if parts.length > 1 then (parts.getLastD "").replace " " "" else "all"

/-- The comment filter: kept when the author is present and the body is longer
than 50 characters (`comment.body` truthiness is subsumed by the length test). -/
def keepComment (c : RedditComment) : Bool :=
  c.author.isSome && decide (50 < c.body.length)

/-- The records built from one post: the first 20 comments of its flattened
tree, filtered, each shaped into the unified record. -/
def postRecords (subredditName query : String) (p : RedditPost) : List RedditRecord :=
  ((p.comments.take 20).filter keepComment).map (fun c =>
    { source := "Reddit", query := query, location_name := p.title,
      review_text := c.body, review_author := c.author.getD "",
      location_rating := toString p.score ++ " upvotes",
      location_address := "r/" ++ subredditName,
      url := "https://reddit.com" ++ p.permalink })

/-- `scrape_reddit` (`gmaps_scraper.py:180-225`), returning the outcome and
the effect trace.  The unguarded fallback search on `r/all` crashes the
process if it raises too. -/
def scrape_reddit (clientId clientSecret userAgent query : String) (limit : Nat)
    (api : RedditApi) : CliOutcome × List RedditEffect :=
  if clientId = "YOUR_CLIENT_ID" ∨ clientSecret = "YOUR_CLIENT_SECRET" then
    (CliOutcome.exited 1, [])
  else
    let name := subredditNameOf query
    match api.search name query limit with
    | some posts =>
      (CliOutcome.completed (posts.flatMap (postRecords name query)),
        [RedditEffect.initClient, RedditEffect.searchSub name])
    | none =>
      match api.search "all" query limit with
      | some posts =>
        (CliOutcome.completed (posts.flatMap (postRecords name query)),
          [RedditEffect.initClient, RedditEffect.searchSub name, RedditEffect.searchSub "all"])
      | none => (CliOutcome.crashed,
          [RedditEffect.initClient, RedditEffect.searchSub name, RedditEffect.searchSub "all"])

/-! ## Helper lemmas about the upsert and the task -/

lemma find?_map_update (pid : Nat) (s mt kt : String) :
    ∀ l : List VibeRow, l.any (fun r => r.place_id == pid) = true →
      ∃ rid, (l.map (fun r => if r.place_id == pid
            then { r with summary := s, mood_tags := mt, key_themes := kt } else r)).find?
          (fun r => r.place_id == pid) = some ⟨rid, pid, s, mt, kt⟩ := by
  intro l
  induction l with
  | nil => simp
  | cons r rs ih =>
    intro h
    by_cases hr : (r.place_id == pid) = true
    · obtain ⟨rid, rpid, rs0, rmt, rkt⟩ := r
      simp only at hr
      have hpid : rpid = pid := by simpa using hr
      subst hpid
      exact ⟨rid, by simp⟩
    · simp only [List.any_cons, hr, Bool.false_or] at h
      obtain ⟨rid, hfind⟩ := ih h
      refine ⟨rid, ?_⟩
      simp only [List.map_cons, if_neg hr]
      rw [List.find?_cons_of_neg _ (by simpa using hr)]
      exact hfind

lemma find?_upsertVibe (db : DB) (pid : Nat) (s mt kt : String) :
    ∃ rid, (upsertVibe db pid s mt kt).vibe_summaries.find? (fun r => r.place_id == pid)
      = some ⟨rid, pid, s, mt, kt⟩ := by
  unfold upsertVibe
  by_cases h : db.vibe_summaries.any (fun r => r.place_id == pid) = true
  · rw [if_pos h]
    exact find?_map_update pid s mt kt db.vibe_summaries h
  · rw [if_neg h]
    refine ⟨db.vibe_summaries.length + 1, ?_⟩
    have hnone : db.vibe_summaries.find? (fun r => r.place_id == pid) = none := by
      rw [List.find?_eq_none]
      intro x hx
      intro hpx
      exact h (List.any_eq_true.mpr ⟨x, hx, hpx⟩)
    rw [List.find?_append, hnone]
    simp

lemma scrapeSource_unbound (st : DB × List String) (pid : Nat) (lbl : String)
    (url : Option String) :
    scrapeSource st pid lbl url none = st := by
  unfold scrapeSource
  cases truthy url <;> simp

/-! ## Claim theorems -/

/-- **C7** — when the LLM API key is absent (`openai.api_key` unset),
`summarize_reviews` returns, for every input list and without attempting the
network call, the JSON encoding of the object whose `summary` describes the
missing configuration, whose `mood_tags` is `["error"]` and whose
`key_themes` is `["configuration"]`. -/
theorem summarize_reviews_missing_key (reviews : List String) (net : String → NetOutcome) :
    summarize_reviews none reviews net
      = ⟨Json.dumps (Json.obj
          [("summary", Json.str "AI Summarizer is not configured. Missing API Key."),
           ("mood_tags", Json.arr [Json.str "error"]),
           ("key_themes", Json.arr [Json.str "configuration"])]), false⟩ := rfl

/-- **C1, counterexample** — with the API key set and a network call that
succeeds, `summarize_reviews` returns the model's reply verbatim; at the reply
`"hello"` the returned string does not parse as a JSON object with the three
keys, so the claim as stated fails on the success path. -/
theorem summarize_reviews_verbatim_cex :
    (summarize_reviews (some "sk-test") [] (fun _ => NetOutcome.ok "hello")).output = "hello" ∧
    ¬ parsesAsJsonObjectWithKeys "hello" ["summary", "mood_tags", "key_themes"] := by
  constructor
  · rfl
  · rintro ⟨kvs, hdump, -⟩
    have hdata : dumpsChars (Json.obj kvs) = "hello".data := congrArg String.data hdump
    have hhead := dumpsChars_head (Json.obj kvs)
    rw [hdata] at hhead
    rcases hhead with h | h | h <;> exact absurd h (by decide)

/-- **C1, amended** — `summarize_reviews` always returns (totality of the
embedding); when the key is falsy or the network call raises, the returned
string parses as a JSON object with exactly the keys `summary`, `mood_tags`,
`key_themes`; when the call succeeds, the reply is returned verbatim and need
not have that shape. -/
theorem summarize_reviews_shape :
    (∀ (apiKey : Option String) (reviews : List String) (net : String → NetOutcome),
        truthy apiKey = false ∨ (∃ e, net (reviews_text reviews) = NetOutcome.raised e) →
        parsesAsJsonObjectWithKeys (summarize_reviews apiKey reviews net).output
          ["summary", "mood_tags", "key_themes"]) ∧
    (∀ (apiKey : Option String) (reviews : List String) (net : String → NetOutcome) (c : String),
        truthy apiKey = true → net (reviews_text reviews) = NetOutcome.ok c →
        (summarize_reviews apiKey reviews net).output = c) := by
  constructor
  · intro apiKey reviews net h
    by_cases hk : truthy apiKey = true
    · rcases h with h | ⟨e, he⟩
      · rw [hk] at h; exact absurd h (by decide)
      · have hout : (summarize_reviews apiKey reviews net).output
            = Json.dumps (apiErrorPayload e) := by
          simp [summarize_reviews, hk, he]
        rw [hout]
        exact ⟨[("summary",
            Json.str ("An error occurred while generating the AI summary: " ++ e)),
            ("mood_tags", Json.arr [Json.str "error"]),
            ("key_themes", Json.arr [Json.str "api_failure"])], rfl, rfl⟩
    · have hk' : truthy apiKey = false := by simpa using hk
      have hout : (summarize_reviews apiKey reviews net).output
          = Json.dumps configErrorPayload := by
        simp [summarize_reviews, hk']
      rw [hout]
      exact ⟨[("summary", Json.str "AI Summarizer is not configured. Missing API Key."),
          ("mood_tags", Json.arr [Json.str "error"]),
          ("key_themes", Json.arr [Json.str "configuration"])], rfl, rfl⟩
  · intro apiKey reviews net c hk hnet
    simp [summarize_reviews, hk, hnet]

/-- Witness for `summarize_reviews_shape` at a concrete input. -/
theorem summarize_reviews_shape_witness :
    parsesAsJsonObjectWithKeys (summarize_reviews none [] (fun _ => NetOutcome.ok "x")).output
      ["summary", "mood_tags", "key_themes"] :=
  summarize_reviews_shape.1 none [] (fun _ => NetOutcome.ok "x") (Or.inl rfl)

/-- **C2** — in the shipped module the background task never invokes an
extractor and never inserts a review: the names it calls
(`scrape_google_maps_reviews`, `scrape_tripadvisor_reviews`) are unbound, the
`NameError` is swallowed by the per-source handler, and with an empty
accumulator the summarization is skipped, so the task is the identity on the
database — also evaluated at the concrete failing input of a place with a
Google Maps URL. -/
theorem scrape_and_store_never_scrapes :
    (∀ (summaryOracle : List String → Option Json) (db : DB) (place_id : Nat)
        (g t : Option String),
        scrape_and_store_reviews mainEnv summaryOracle db place_id g t = db) ∧
    scrape_and_store_reviews mainEnv (fun _ => none)
        ⟨[⟨1, "Blue Cup", "Pune", "cafe", none, none, none⟩], [], []⟩ 1
        (some "https://maps.google.com/?cid=1") none
      = ⟨[⟨1, "Blue Cup", "Pune", "cafe", none, none, none⟩], [], []⟩ := by
  have hgen : ∀ (oracle : List String → Option Json) (db : DB) (pid : Nat)
      (g t : Option String), scrape_and_store_reviews mainEnv oracle db pid g t = db := by
    intro oracle db pid g t
    unfold scrape_and_store_reviews collectPhase
    rw [show mainEnv.scrape_google_maps_reviews = none from rfl,
      show mainEnv.scrape_tripadvisor_reviews = none from rfl,
      scrapeSource_unbound, scrapeSource_unbound]
    rfl
  exact ⟨hgen, hgen _ _ _ _ _⟩

/-- **C9** — with the forum credentials left unset (the template placeholders
`"YOUR_CLIENT_ID"` / `"YOUR_CLIENT_SECRET"`), the CLI's Reddit path exits with
status 1 immediately: no API client is constructed and no search is performed
(empty effect trace). -/
theorem scrape_reddit_placeholder_credentials (clientId clientSecret userAgent query : String)
    (limit : Nat) (api : RedditApi)
    (h : clientId = "YOUR_CLIENT_ID" ∨ clientSecret = "YOUR_CLIENT_SECRET") :
    scrape_reddit clientId clientSecret userAgent query limit api
      = (CliOutcome.exited 1, []) := by
  unfold scrape_reddit
  rw [if_pos h]

/-- Witness for `scrape_reddit_placeholder_credentials` at a concrete input. -/
theorem scrape_reddit_placeholder_credentials_witness :
    scrape_reddit "YOUR_CLIENT_ID" "YOUR_CLIENT_SECRET" "agent" "cafes in pune" 5
        ⟨fun _ _ _ => none⟩ = (CliOutcome.exited 1, []) :=
  scrape_reddit_placeholder_credentials _ _ _ _ _ _ (Or.inl rfl)

/-- **C10** — the write path (`json.dumps` of the tag lists inside the upsert
block of `scrape_and_store_reviews`) followed by the read path
(`GET /places/{id}/vibe`, which `json.loads` the stored text) is the identity
on the tag lists: reading back returns exactly the upserted summary and
lists. -/
theorem vibe_tags_roundtrip (db : DB) (place_id : Nat) (s : String)
    (mood_tags key_themes : List String) :
    ∃ rid, get_vibe_summary
        (upsertVibe db place_id s
          (Json.dumps (Json.arr (mood_tags.map Json.str)))
          (Json.dumps (Json.arr (key_themes.map Json.str)))) place_id
      = Except.ok ⟨rid, place_id, s, mood_tags, key_themes⟩ := by
  obtain ⟨rid, hfind⟩ := find?_upsertVibe db place_id s
    (Json.dumps (Json.arr (mood_tags.map Json.str)))
    (Json.dumps (Json.arr (key_themes.map Json.str)))
  refine ⟨rid, ?_⟩
  unfold get_vibe_summary
  rw [hfind]
  simp only [parseStringArray_dumps]

/-- **C4** — `GET /places/{id}/vibe` responds 404 whenever no `vibe_summaries`
row exists for the place; and after a run of the background task that
collected at least one review and whose summarizer reply parsed to an object
with a string `summary` and string-list `mood_tags` / `key_themes`, the
endpoint returns exactly the upserted values. -/
theorem vibe_endpoint_404_and_readback :
    (∀ (db : DB) (place_id : Nat),
        (∀ r ∈ db.vibe_summaries, r.place_id ≠ place_id) →
        get_vibe_summary db place_id = Except.error 404) ∧
    (∀ (env : Env) (summaryOracle : List String → Option Json) (db : DB) (place_id : Nat)
        (g t : Option String) (j : Json) (s : String) (mt kt : List String),
        (collectPhase env db place_id g t).2 ≠ [] →
        summaryOracle (collectPhase env db place_id g t).2 = some j →
        dictGet j "summary" (Json.str "No summary provided.") = some (Json.str s) →
        dictGet j "mood_tags" (Json.arr []) = some (Json.arr (mt.map Json.str)) →
        dictGet j "key_themes" (Json.arr []) = some (Json.arr (kt.map Json.str)) →
        ∃ rid, get_vibe_summary (scrape_and_store_reviews env summaryOracle db place_id g t)
            place_id = Except.ok ⟨rid, place_id, s, mt, kt⟩) := by
  constructor
  · intro db place_id h
    unfold get_vibe_summary
    rw [List.find?_eq_none.mpr (fun x hx => by simpa using h x hx)]
  · intro env oracle db place_id g t j s mt kt hne horacle hs hmt hkt
    have hnemp : (collectPhase env db place_id g t).2.isEmpty = false := by
      simpa [List.isEmpty_iff] using hne
    have hscrape : scrape_and_store_reviews env oracle db place_id g t
        = upsertVibe (collectPhase env db place_id g t).1 place_id s
            (Json.dumps (Json.arr (mt.map Json.str)))
            (Json.dumps (Json.arr (kt.map Json.str))) := by
      unfold scrape_and_store_reviews summarizePhase
      simp only [hnemp, Bool.false_eq_true, if_false, horacle, hs, hmt, hkt]
    rw [hscrape]
    obtain ⟨rid, hfind⟩ := find?_upsertVibe (collectPhase env db place_id g t).1 place_id s
      (Json.dumps (Json.arr (mt.map Json.str))) (Json.dumps (Json.arr (kt.map Json.str)))
    refine ⟨rid, ?_⟩
    unfold get_vibe_summary
    rw [hfind]
    simp only [parseStringArray_dumps]

/-- Witness for `vibe_endpoint_404_and_readback` at a concrete input. -/
theorem vibe_endpoint_404_and_readback_witness :
    get_vibe_summary ⟨[], [], []⟩ 1 = Except.error 404 :=
  vibe_endpoint_404_and_readback.1 ⟨[], [], []⟩ 1 (by simp)

/-! ## Reachable-state invariants -/

/-- The joint invariant of reachable database states: place ids are the
consecutive AUTOINCREMENT values `1..n`; each place has at most one
`vibe_summaries` row; summary and review rows reference existing places. -/
def DBInv (db : DB) : Prop :=
  db.places.map (fun p => p.id) = List.range' 1 db.places.length ∧
  (∀ pid, (db.vibe_summaries.filter (fun v => v.place_id == pid)).length ≤ 1) ∧
  (∀ v ∈ db.vibe_summaries, db.places.any (fun p => p.id == v.place_id) = true) ∧
  (∀ r ∈ db.reviews, db.places.any (fun p => p.id == r.place_id) = true)

lemma scrapeSource_db (st : DB × List String) (pid : Nat) (lbl : String)
    (url : Option String) (f : Option (String → Except String (List String))) :
    (scrapeSource st pid lbl url f).1.places = st.1.places ∧
    (scrapeSource st pid lbl url f).1.vibe_summaries = st.1.vibe_summaries ∧
    ∃ ts : List String, (scrapeSource st pid lbl url f).1.reviews
        = st.1.reviews ++ ts.map (fun c => (⟨pid, lbl, c⟩ : ReviewRow)) := by
  unfold scrapeSource
  split
  · split
    · exact ⟨rfl, rfl, [], by simp⟩
    · split
      · exact ⟨rfl, rfl, [], by simp⟩
      · exact ⟨rfl, rfl, _, rfl⟩
  · exact ⟨rfl, rfl, [], by simp⟩

lemma collectPhase_db (env : Env) (db : DB) (pid : Nat) (g t : Option String) :
    (collectPhase env db pid g t).1.places = db.places ∧
    (collectPhase env db pid g t).1.vibe_summaries = db.vibe_summaries ∧
    ∃ ts1 ts2 : List String, (collectPhase env db pid g t).1.reviews
        = db.reviews ++ ts1.map (fun c => (⟨pid, "Google Maps", c⟩ : ReviewRow))
            ++ ts2.map (fun c => (⟨pid, "TripAdvisor", c⟩ : ReviewRow)) := by
  obtain ⟨hp1, hv1, ts1, hr1⟩ :=
    scrapeSource_db (db, []) pid "Google Maps" g env.scrape_google_maps_reviews
  obtain ⟨hp2, hv2, ts2, hr2⟩ :=
    scrapeSource_db (scrapeSource (db, []) pid "Google Maps" g env.scrape_google_maps_reviews)
      pid "TripAdvisor" t env.scrape_tripadvisor_reviews
  unfold collectPhase
  exact ⟨by rw [hp2, hp1], by rw [hv2, hv1], ts1, ts2, by rw [hr2, hr1]⟩

lemma upsertVibe_places_reviews (db : DB) (pid : Nat) (s mt kt : String) :
    (upsertVibe db pid s mt kt).places = db.places ∧
    (upsertVibe db pid s mt kt).reviews = db.reviews := by
  unfold upsertVibe
  split <;> exact ⟨rfl, rfl⟩

lemma summarizePhase_cases (oracle : List String → Option Json) (db : DB) (pid : Nat)
    (acc : List String) :
    summarizePhase oracle db pid acc = db ∨
    ∃ s mt kt, summarizePhase oracle db pid acc = upsertVibe db pid s mt kt := by
  unfold summarizePhase
  split <;> try exact Or.inl rfl
  all_goals (split <;> try exact Or.inl rfl)
  all_goals (split <;> try exact Or.inl rfl)
  all_goals (split <;> first | exact Or.inr ⟨_, _, _, rfl⟩ | exact Or.inl rfl)

lemma filter_map_update_len (pid x : Nat) (s mt kt : String) :
    ∀ l : List VibeRow,
      ((l.map (fun r => if r.place_id == pid
          then { r with summary := s, mood_tags := mt, key_themes := kt } else r)).filter
          (fun v => v.place_id == x)).length
        = (l.filter (fun v => v.place_id == x)).length := by
  intro l
  induction l with
  | nil => rfl
  | cons r rs ih =>
    obtain ⟨rid, rpid, a0, b0, c0⟩ := r
    by_cases hr : rpid = pid <;> by_cases hx : rpid = x <;>
      simp_all [List.map_cons, List.filter_cons]

lemma upsertVibe_filter_len (db : DB) (pid x : Nat) (s mt kt : String)
    (h : (db.vibe_summaries.filter (fun v => v.place_id == x)).length ≤ 1) :
    ((upsertVibe db pid s mt kt).vibe_summaries.filter
        (fun v => v.place_id == x)).length ≤ 1 := by
  unfold upsertVibe
  by_cases hex : db.vibe_summaries.any (fun r => r.place_id == pid) = true
  · rw [if_pos hex]
    rw [filter_map_update_len pid x s mt kt db.vibe_summaries]
    exact h
  · rw [if_neg hex]
    have hnone : ∀ v ∈ db.vibe_summaries, (v.place_id == pid) = false := by
      intro v hv
      by_contra hvp
      exact hex (List.any_eq_true.mpr ⟨v, hv, by simpa using hvp⟩)
    rw [List.filter_append, List.length_append]
    by_cases hx : pid = x
    · subst hx
      have hfil : db.vibe_summaries.filter (fun v => v.place_id == pid) = [] :=
        List.filter_eq_nil_iff.mpr (fun v hv => by simp [hnone v hv])
      rw [hfil]
      simp
    · have : ((⟨db.vibe_summaries.length + 1, pid, s, mt, kt⟩ : VibeRow).place_id == x)
          = false := by simpa using hx
      simp only [List.filter_cons, this, List.filter_nil]
      simpa using h

lemma upsertVibe_mem (db : DB) (pid : Nat) (s mt kt : String) (v : VibeRow)
    (hv : v ∈ (upsertVibe db pid s mt kt).vibe_summaries) :
    (∃ w ∈ db.vibe_summaries, w.place_id = v.place_id) ∨ v.place_id = pid := by
  unfold upsertVibe at hv
  by_cases hex : db.vibe_summaries.any (fun r => r.place_id == pid) = true
  · rw [if_pos hex] at hv
    obtain ⟨w, hw, hwv⟩ := List.mem_map.mp hv
    left
    refine ⟨w, hw, ?_⟩
    by_cases hwp : (w.place_id == pid) = true <;> simp [hwp] at hwv <;> rw [← hwv]
  · rw [if_neg hex] at hv
    rcases List.mem_append.mp hv with h | h
    · exact Or.inl ⟨v, h, rfl⟩
    · right
      have : v = ⟨db.vibe_summaries.length + 1, pid, s, mt, kt⟩ := by simpa using h
      rw [this]

lemma any_mono_append (P : List PlaceRow) (new : List PlaceRow) (f : PlaceRow → Bool)
    (h : P.any f = true) : (P ++ new).any f = true := by
  rw [List.any_append, h, Bool.true_or]

lemma reachable_inv : ∀ db : DB, Reachable db → DBInv db := by
  intro db h
  induction h with
  | init =>
    refine ⟨rfl, fun pid => by simp, fun v hv => absurd hv (List.not_mem_nil v),
      fun r hr => absurd hr (List.not_mem_nil r)⟩
  | create db n c cat a la lo _ ih =>
    obtain ⟨h1, h2, h3, h4⟩ := ih
    unfold create_place
    refine ⟨?_, h2, ?_, ?_⟩
    · have hcat : List.range' 1 (db.places.length + 1)
          = List.range' 1 db.places.length ++ [1 + db.places.length] := by
        simpa using @List.range'_concat 1 1 db.places.length
      simp only [List.map_append, List.map_cons, List.map_nil, h1, List.length_append,
        List.length_cons, List.length_nil]
      rw [show db.places.length + (0 + 1) = db.places.length + 1 by omega, hcat]
      simp [Nat.add_comm]
    · intro v hv
      exact any_mono_append _ _ _ (h3 v hv)
    · intro r hr
      exact any_mono_append _ _ _ (h4 r hr)
  | scrape db env oracle pid g t _ hpid ih =>
    obtain ⟨h1, h2, h3, h4⟩ := ih
    obtain ⟨hp, hv, ts1, ts2, hr⟩ := collectPhase_db env db pid g t
    have hst : DBInv (collectPhase env db pid g t).1 := by
      refine ⟨by rw [hp, h1], fun x => by rw [hv]; exact h2 x, fun v hv' => ?_, fun r hr' => ?_⟩
      · rw [hp]; exact h3 v (by rw [hv] at hv'; exact hv')
      · rw [hp]
        rw [hr] at hr'
        rcases List.mem_append.mp hr' with h' | h'
        · rcases List.mem_append.mp h' with h'' | h''
          · exact h4 r h''
          · obtain ⟨c0, -, rfl⟩ := List.mem_map.mp h''
            exact hpid
        · obtain ⟨c0, -, rfl⟩ := List.mem_map.mp h'
          exact hpid
    rcases summarizePhase_cases oracle (collectPhase env db pid g t).1 pid
        (collectPhase env db pid g t).2 with hcase | ⟨s, mt, kt, hcase⟩
    · unfold scrape_and_store_reviews
      rw [hcase]
      exact hst
    · unfold scrape_and_store_reviews
      rw [hcase]
      obtain ⟨h1', h2', h3', h4'⟩ := hst
      obtain ⟨hup, hur⟩ :=
        upsertVibe_places_reviews (collectPhase env db pid g t).1 pid s mt kt
      refine ⟨by rw [hup, h1'], fun x => upsertVibe_filter_len _ pid x s mt kt (h2' x),
        fun v hv' => ?_, fun r hr' => by rw [hup]; exact h4' r (by rw [hur] at hr'; exact hr')⟩
      rw [hup]
      rcases upsertVibe_mem _ pid s mt kt v hv' with ⟨w, hw, hwp⟩ | hvpid
      · rw [← hwp]; exact h3' w hw
      · rw [hvpid]
        rw [hp]
        exact hpid

/-- **C3** — in every reachable state each place has at most one
`vibe_summaries` row; a further run of the background task appends its review
inserts after the existing review rows (removing or replacing none) and, when
a summary row for the place already exists, performs the upsert as an in-place
UPDATE: the `(id, place_id)` signature of the table is unchanged, so no second
row appears. -/
theorem vibe_unique_and_reviews_additive (db : DB) (h : Reachable db) :
    (∀ pid, (db.vibe_summaries.filter (fun v => v.place_id == pid)).length ≤ 1) ∧
    (∀ (env : Env) (summaryOracle : List String → Option Json) (pid : Nat)
        (g t : Option String),
      (∃ new, (scrape_and_store_reviews env summaryOracle db pid g t).reviews
          = db.reviews ++ new) ∧
      (db.vibe_summaries.any (fun r => r.place_id == pid) = true →
        (scrape_and_store_reviews env summaryOracle db pid g t).vibe_summaries.map
            (fun r => (r.id, r.place_id))
          = db.vibe_summaries.map (fun r => (r.id, r.place_id)))) := by
  refine ⟨(reachable_inv db h).2.1, ?_⟩
  intro env oracle pid g t
  obtain ⟨hp, hv, ts1, ts2, hr⟩ := collectPhase_db env db pid g t
  constructor
  · rcases summarizePhase_cases oracle (collectPhase env db pid g t).1 pid
        (collectPhase env db pid g t).2 with hcase | ⟨s, mt, kt, hcase⟩
    · unfold scrape_and_store_reviews
      rw [hcase, hr]
      exact ⟨_, List.append_assoc _ _ _⟩
    · unfold scrape_and_store_reviews
      rw [hcase, (upsertVibe_places_reviews _ pid s mt kt).2, hr]
      exact ⟨_, List.append_assoc _ _ _⟩
  · intro hex
    rcases summarizePhase_cases oracle (collectPhase env db pid g t).1 pid
        (collectPhase env db pid g t).2 with hcase | ⟨s, mt, kt, hcase⟩
    · unfold scrape_and_store_reviews
      rw [hcase, hv]
    · unfold scrape_and_store_reviews
      rw [hcase]
      have hex' : (collectPhase env db pid g t).1.vibe_summaries.any
          (fun r => r.place_id == pid) = true := by rw [hv]; exact hex
      unfold upsertVibe
      rw [if_pos hex']
      show ((collectPhase env db pid g t).1.vibe_summaries.map _).map _ = _
      rw [List.map_map, hv]
      apply List.map_congr_left
      intro r hrmem
      by_cases hrp : (r.place_id == pid) = true <;> simp [Function.comp, hrp]

/-- Witness for `vibe_unique_and_reviews_additive` at a concrete input. -/
theorem vibe_unique_and_reviews_additive_witness :
    (((⟨[], [], []⟩ : DB)).vibe_summaries.filter (fun v => v.place_id == 1)).length ≤ 1 :=
  (vibe_unique_and_reviews_additive ⟨[], [], []⟩ Reachable.init).1 1

/-- **C5, counterexample** — `GET /places/{id}/reviews` for a place id absent
from the (reachable, here empty) database responds 200 with the empty list,
not with a 404 as the claim states: the handler performs no existence check. -/
theorem get_reviews_nonexistent_place_cex :
    Reachable (⟨[], [], []⟩ : DB) ∧
    get_reviews ⟨[], [], []⟩ 999 = Except.ok [] ∧
    get_reviews ⟨[], [], []⟩ 999 ≠ Except.error 404 :=
  ⟨Reachable.init, rfl, fun hcontra => Except.noConfusion hcontra⟩

/-- **C5, amended** — for a place id absent from a reachable database,
`GET /places/{id}` and `GET /places/{id}/vibe` respond 404 and
`POST /scrape/reviews` responds 404 while enqueueing no background task;
`GET /places/{id}/reviews`, however, responds 200 with the empty list. -/
theorem nonexistent_place_endpoints (db : DB) (pid : Nat) (pname : String)
    (g t : Option String) (h : Reachable db)
    (habs : db.places.all (fun p => !(p.id == pid)) = true) :
    get_place db pid = Except.error 404 ∧
    get_vibe_summary db pid = Except.error 404 ∧
    scrape_reviews_endpoint db ⟨pid, pname, g, t⟩ = Except.error 404 ∧
    get_reviews db pid = Except.ok [] := by
  obtain ⟨-, -, h3, h4⟩ := reachable_inv db h
  have hnot : ∀ p ∈ db.places, (p.id == pid) = false := by
    intro p hp
    have := List.all_eq_true.mp habs p hp
    simpa using this
  have hany : db.places.any (fun p => p.id == pid) = false := by
    rw [List.any_eq_false]
    intro p hp
    simp [hnot p hp]
  refine ⟨?_, ?_, ?_, ?_⟩
  · unfold get_place
    rw [List.find?_eq_none.mpr (fun p hp => by simp [hnot p hp])]
  · unfold get_vibe_summary
    have hfind : db.vibe_summaries.find? (fun r => r.place_id == pid) = none := by
      rw [List.find?_eq_none]
      intro v hv hpv
      have hpid : v.place_id = pid := by simpa using hpv
      obtain ⟨p, hp, hpe⟩ := List.any_eq_true.mp (h3 v hv)
      have hpe' : p.id = pid := by rw [← hpid]; simpa using hpe
      have : (p.id == pid) = true := by simp [hpe']
      rw [hnot p hp] at this
      exact absurd this (by decide)
    rw [hfind]
  · unfold scrape_reviews_endpoint
    rw [if_neg (by simp [hany])]
  · unfold get_reviews
    have hfil : db.reviews.filter (fun r => r.place_id == pid) = [] := by
      rw [List.filter_eq_nil_iff]
      intro r hrm hpr
      have hpid : r.place_id = pid := by simpa using hpr
      obtain ⟨p, hp, hpe⟩ := List.any_eq_true.mp (h4 r hrm)
      have hpe' : p.id = pid := by rw [← hpid]; simpa using hpe
      have : (p.id == pid) = true := by simp [hpe']
      rw [hnot p hp] at this
      exact absurd this (by decide)
    rw [hfil]

/-- Witness for `nonexistent_place_endpoints` at a concrete input. -/
theorem nonexistent_place_endpoints_witness :
    get_place ⟨[], [], []⟩ 999 = Except.error 404 ∧
    get_vibe_summary ⟨[], [], []⟩ 999 = Except.error 404 ∧
    scrape_reviews_endpoint ⟨[], [], []⟩ ⟨999, "Blue Cup", none, none⟩ = Except.error 404 ∧
    get_reviews ⟨[], [], []⟩ 999 = Except.ok [] :=
  nonexistent_place_endpoints ⟨[], [], []⟩ 999 "Blue Cup" none none Reachable.init (by decide)

/-- **C8, counterexample** — `POST /places/` accepts empty strings: creating a
place with an empty name succeeds and produces a reachable state whose
`places` table contains a row with an empty `name`, so the non-emptiness half
of the claim fails (the schema only demands NOT NULL). -/
theorem create_place_empty_name_cex :
    Reachable (create_place ⟨[], [], []⟩ "" "Pune" "cafe" none none none).1 ∧
    ((create_place ⟨[], [], []⟩ "" "Pune" "cafe" none none none).1.places.any
        (fun p => p.name.isEmpty)) = true :=
  ⟨Reachable.create ⟨[], [], []⟩ "" "Pune" "cafe" none none none Reachable.init, by decide⟩

/-- **C8, amended** — in every reachable state the `places` rows carry
pairwise distinct ids (they are the consecutive AUTOINCREMENT values);
name/city/category are NOT NULL but may be empty strings. -/
theorem places_ids_unique (db : DB) (h : Reachable db) :
    (db.places.map (fun p => p.id)).Nodup := by
  rw [(reachable_inv db h).1]
  exact List.nodup_range' 1 db.places.length 1 Nat.one_pos

/-- Witness for `places_ids_unique` at a concrete input. -/
theorem places_ids_unique_witness :
    ((create_place ⟨[], [], []⟩ "Blue Cup" "Pune" "cafe" none none none).1.places.map
        (fun p => p.id)).Nodup :=
  places_ids_unique _
    (Reachable.create ⟨[], [], []⟩ "Blue Cup" "Pune" "cafe" none none none Reachable.init)

/-! ## Facts about the ASCII case fold `Char.toLower` -/

lemma char_toNat_ofNat_lt (n : Nat) (h : n < 55296) : (Char.ofNat n).toNat = n := by
  have hv : n.isValidChar := Or.inl h
  unfold Char.ofNat
  rw [dif_pos hv]
  simp [Char.ofNatAux, Char.toNat, UInt32.toNat, BitVec.toNat_ofNatLt]

lemma toLower_eq (c : Char) :
    Char.toLower c = if c.toNat ≥ 65 ∧ c.toNat ≤ 90 then Char.ofNat (c.toNat + 32) else c := rfl

lemma toNat_toLower (c : Char) :
    (Char.toLower c).toNat = if 65 ≤ c.toNat ∧ c.toNat ≤ 90 then c.toNat + 32 else c.toNat := by
  rw [toLower_eq]
  by_cases h : 65 ≤ c.toNat ∧ c.toNat ≤ 90
  · rw [if_pos ⟨h.1, h.2⟩, if_pos h]
    exact char_toNat_ofNat_lt (c.toNat + 32) (by omega)
  · rw [if_neg (fun hc => h ⟨hc.1, hc.2⟩), if_neg h]

/-- The ASCII fold is idempotent: a folded character folds to itself. -/
lemma toLower_toLower (c : Char) : (Char.toLower c).toLower = Char.toLower c := by
  by_cases h : 65 ≤ c.toNat ∧ c.toNat ≤ 90
  · have h1 : (Char.toLower c).toNat = c.toNat + 32 := by rw [toNat_toLower, if_pos h]
    rw [toLower_eq (Char.toLower c), if_neg (by omega)]
  · have h1 : (Char.toLower c).toNat = c.toNat := by rw [toNat_toLower, if_neg h]
    rw [toLower_eq (Char.toLower c), if_neg (by omega)]

lemma toLower_eq_self_of_notletter (c : Char) (h : ¬(65 ≤ c.toNat ∧ c.toNat ≤ 90)) :
    Char.toLower c = c := by
  rw [toLower_eq, if_neg (fun hc => h ⟨hc.1, hc.2⟩)]

/-- The fold never produces `%` from another character. -/
lemma toLower_eq_pct (c : Char) (h : Char.toLower c = '%') : c = '%' := by
  by_cases hg : 65 ≤ c.toNat ∧ c.toNat ≤ 90
  · exfalso
    have h1 : (Char.toLower c).toNat = c.toNat + 32 := by rw [toNat_toLower, if_pos hg]
    rw [h] at h1
    have h2 : ('%').toNat = 37 := rfl
    omega
  · rw [← h, toLower_eq_self_of_notletter c hg]

/-- The fold never produces `_` from another character. -/
lemma toLower_eq_underscore (c : Char) (h : Char.toLower c = '_') : c = '_' := by
  by_cases hg : 65 ≤ c.toNat ∧ c.toNat ≤ 90
  · exfalso
    have h1 : (Char.toLower c).toNat = c.toNat + 32 := by rw [toNat_toLower, if_pos hg]
    rw [h] at h1
    have h2 : ('_').toNat = 95 := rfl
    omega
  · rw [← h, toLower_eq_self_of_notletter c hg]

/-! ## `LIKE` versus substring containment -/

lemma anySuffix_of_nil_true (f : List Char → Bool) (hf : f [] = true) :
    ∀ t, anySuffix f t = true := by
  intro t
  induction t with
  | nil => simpa [anySuffix] using hf
  | cons c ts ih => simp [anySuffix, ih]

lemma anySuffix_empty_pattern (t : List Char) : anySuffix (likeMatch []) t = true :=
  anySuffix_of_nil_true (likeMatch []) rfl t

lemma likeMatch_pct (ps t : List Char) :
    likeMatch ('%' :: ps) t = anySuffix (likeMatch ps) t := by
  simp [likeMatch]

lemma isSubstr_nil_needle : ∀ hay : List Char, isSubstr [] hay = true := by
  intro hay
  induction hay with
  | nil => rfl
  | cons c hs ih => simp [isSubstr, startsWithChars, ih]

lemma likeMatch_append_pct : ∀ n : List Char, '%' ∉ n → '_' ∉ n →
    ∀ t, likeMatch (n ++ ['%']) t = startsWithChars n t := by
  intro n
  induction n with
  | nil =>
    intro _ _ t
    rw [List.nil_append, likeMatch_pct, anySuffix_empty_pattern]
    rfl
  | cons p n ih =>
    intro hp hu t
    simp only [List.mem_cons, not_or] at hp hu
    obtain ⟨hp1, hp2⟩ := hp
    obtain ⟨hu1, hu2⟩ := hu
    have hps : p ≠ '%' := fun hcontra => hp1 hcontra.symm
    have hus : p ≠ '_' := fun hcontra => hu1 hcontra.symm
    cases t with
    | nil => simp [likeMatch, hps, hus, startsWithChars]
    | cons c ts => simp [likeMatch, hps, hus, startsWithChars, ih hp2 hu2]

lemma likeMatch_pct_wrap (n : List Char) (hp : '%' ∉ n) (hu : '_' ∉ n) :
    ∀ t, likeMatch ('%' :: (n ++ ['%'])) t = isSubstr n t := by
  intro t
  induction t with
  | nil =>
    rw [likeMatch_pct]
    show likeMatch (n ++ ['%']) [] = isSubstr n []
    rw [likeMatch_append_pct n hp hu]
    rfl
  | cons c ts ih =>
    rw [likeMatch_pct]
    show (likeMatch (n ++ ['%']) (c :: ts) || anySuffix (likeMatch (n ++ ['%'])) ts)
        = isSubstr n (c :: ts)
    rw [likeMatch_append_pct n hp hu, ← likeMatch_pct, ih]
    rfl

/-- Mapping either side with a function that agrees with the ASCII fold after
folding does not change the (fold-at-comparison) prefix test. -/
lemma startsWithChars_map_fold (f g : Char → Char) :
    ∀ (n t : List Char), (∀ c ∈ n, (f c).toLower = c.toLower) →
      (∀ c ∈ t, (g c).toLower = c.toLower) →
      startsWithChars (n.map f) (t.map g) = startsWithChars n t := by
  intro n
  induction n with
  | nil => intro t _ _; rfl
  | cons a n ih =>
    intro t hn ht
    cases t with
    | nil => rfl
    | cons b t =>
      simp only [List.map_cons, startsWithChars]
      rw [hn a (List.mem_cons_self a n), ht b (List.mem_cons_self b t),
        ih t (fun c hc => hn c (List.mem_cons_of_mem a hc))
          (fun c hc => ht c (List.mem_cons_of_mem b hc))]

/-- The same invariance for containment. -/
lemma isSubstr_map_fold (f g : Char → Char) (n : List Char)
    (hn : ∀ c ∈ n, (f c).toLower = c.toLower) :
    ∀ t : List Char, (∀ c ∈ t, (g c).toLower = c.toLower) →
      isSubstr (n.map f) (t.map g) = isSubstr n t := by
  intro t
  induction t with
  | nil =>
    intro _
    exact startsWithChars_map_fold f g n [] hn (fun c hc => absurd hc (List.not_mem_nil c))
  | cons c t ih =>
    intro ht
    have hs := startsWithChars_map_fold f g n (c :: t) hn ht
    simp only [List.map_cons] at hs
    simp only [List.map_cons, isSubstr]
    rw [hs, ih (fun x hx => ht x (List.mem_cons_of_mem c hx))]

/-- A `LOWER(column) LIKE '%' + pyLower(query) + '%'` test is containment of
the raw query in the raw column up to ASCII case, provided the lowered query
is free of wildcards and `pyLower` agrees with the ASCII fold on the query's
characters. -/
lemma colLike_substr (pyLower : Char → Char) (q : String)
    (hq : ∀ c ∈ q.data, (pyLower c).toLower = c.toLower)
    (hp : '%' ∉ q.data.map pyLower) (hu : '_' ∉ q.data.map pyLower) (s : String) :
    colLike pyLower q (some s) = isSubstr q.data s.data := by
  show likeMatch ('%' :: (q.data.map pyLower ++ ['%'])) (lowerData s) = _
  rw [likeMatch_pct_wrap (q.data.map pyLower) hp hu]
  show isSubstr (q.data.map pyLower) (s.data.map Char.toLower) = _
  rw [isSubstr_map_fold pyLower Char.toLower q.data hq s.data (fun c _ => toLower_toLower c)]

lemma data_of_isEmpty (q : String) (hq : q.isEmpty = true) : q.data = [] := by
  rw [(String.isEmpty_iff q).mp hq]

lemma find?_eq_head?_filter (p : α → Bool) : ∀ l : List α, l.find? p = (l.filter p).head? := by
  intro l
  induction l with
  | nil => rfl
  | cons a l ih =>
    by_cases ha : p a = true
    · rw [List.find?_cons_of_pos _ ha, List.filter_cons_of_pos ha]
      rfl
    · rw [List.find?_cons_of_neg _ (by simpa using ha), List.filter_cons_of_neg (by simpa using ha),
        ih]

/-! ## Search equivalence -/

lemma colLike_none (pyLower : Char → Char) (q : String) : colLike pyLower q none = false := rfl

lemma rowCond_none_summary (pyLower : Char → Char) (q : String)
    (hq : ∀ c ∈ q.data, (pyLower c).toLower = c.toLower)
    (hp : '%' ∉ q.data.map pyLower) (hu : '_' ∉ q.data.map pyLower) (p : PlaceRow) :
    rowCond pyLower q none (p, (none : Option VibeRow))
      = (isSubstr q.data p.name.data || isSubstr q.data p.category.data) := by
  unfold rowCond
  by_cases hqe : q.isEmpty = true
  · simp [truthy, hqe, data_of_isEmpty q hqe, isSubstr_nil_needle]
  · simp [truthy, hqe, colLike_substr pyLower q hq hp hu, colLike_none]

lemma rowCond_some_summary (pyLower : Char → Char) (q : String)
    (hq : ∀ c ∈ q.data, (pyLower c).toLower = c.toLower)
    (hp : '%' ∉ q.data.map pyLower) (hu : '_' ∉ q.data.map pyLower)
    (p : PlaceRow) (v : VibeRow) :
    rowCond pyLower q none (p, some v)
      = (isSubstr q.data p.name.data
          || isSubstr q.data p.category.data
          || (isSubstr q.data v.summary.data
              || isSubstr q.data v.mood_tags.data
              || isSubstr q.data v.key_themes.data)) := by
  unfold rowCond
  by_cases hqe : q.isEmpty = true
  · simp [truthy, hqe, data_of_isEmpty q hqe, isSubstr_nil_needle]
  · simp [truthy, hqe, colLike_substr pyLower q hq hp hu, Bool.or_assoc]

lemma claimMatchCond_of_nil (V : List VibeRow) (q : String) (p : PlaceRow)
    (hfil : V.filter (fun v => v.place_id == p.id) = []) :
    claimMatchCond V q p
      = (isSubstr q.data p.name.data || isSubstr q.data p.category.data) := by
  unfold claimMatchCond
  rw [find?_eq_head?_filter, hfil]
  simp

lemma claimMatchCond_of_one (V : List VibeRow) (q : String) (p : PlaceRow) (v : VibeRow)
    (hfil : V.filter (fun v => v.place_id == p.id) = [v]) :
    claimMatchCond V q p = (isSubstr q.data p.name.data
        || isSubstr q.data p.category.data
        || (isSubstr q.data v.summary.data
            || isSubstr q.data v.mood_tags.data
            || isSubstr q.data v.key_themes.data)) := by
  unfold claimMatchCond
  rw [find?_eq_head?_filter, hfil]
  simp

lemma search_claim_aux (pyLower : Char → Char) (V : List VibeRow) (R : List ReviewRow)
    (q : String)
    (hone : ∀ pid, (V.filter (fun v => v.place_id == pid)).length ≤ 1)
    (hq : ∀ c ∈ q.data, (pyLower c).toLower = c.toLower)
    (hp : '%' ∉ q.data.map pyLower) (hu : '_' ∉ q.data.map pyLower) :
    ∀ P : List PlaceRow,
      search_places pyLower ⟨P, R, V⟩ q none = claimSearchMatches ⟨P, R, V⟩ q := by
  intro P
  induction P with
  | nil => rfl
  | cons p P ih =>
    have hclaim : claimSearchMatches ⟨p :: P, R, V⟩ q
        = (if claimMatchCond V q p = true then p :: claimSearchMatches ⟨P, R, V⟩ q
           else claimSearchMatches ⟨P, R, V⟩ q) := by
      unfold claimSearchMatches
      exact List.filter_cons
    have hsearch : search_places pyLower ⟨p :: P, R, V⟩ q none
        = ((match V.filter (fun (v : VibeRow) => v.place_id == p.id) with
            | [] => [(p, (none : Option VibeRow))]
            | vs => vs.map (fun v => (p, some v))).filter (rowCond pyLower q none)).map Prod.fst
          ++ search_places pyLower ⟨P, R, V⟩ q none := by
      unfold search_places leftJoinRows
      rw [show (⟨p :: P, R, V⟩ : DB).places = p :: P from rfl,
        List.flatMap_cons, List.filter_append, List.map_append]
    rw [hsearch, hclaim, ih]
    cases hfil : V.filter (fun (v : VibeRow) => v.place_id == p.id) with
    | nil =>
      have hrc := rowCond_none_summary pyLower q hq hp hu p
      have hcm := claimMatchCond_of_nil V q p hfil
      by_cases hb : (isSubstr q.data p.name.data || isSubstr q.data p.category.data) = true
      · rw [show (match ([] : List VibeRow) with
              | [] => [(p, (none : Option VibeRow))]
              | vs => vs.map (fun v => (p, some v))) = [(p, (none : Option VibeRow))] from rfl,
          List.filter_cons_of_pos (by rw [hrc]; exact hb), hcm, if_pos hb]
        rfl
      · rw [show (match ([] : List VibeRow) with
              | [] => [(p, (none : Option VibeRow))]
              | vs => vs.map (fun v => (p, some v))) = [(p, (none : Option VibeRow))] from rfl,
          List.filter_cons_of_neg (by rw [hrc]; exact hb), hcm, if_neg hb]
        rfl
    | cons v vs =>
      have hvs : vs = [] := by
        have h1 := hone p.id
        rw [hfil] at h1
        have h2 : vs.length + 1 ≤ 1 := by simpa using h1
        exact List.length_eq_zero.mp (by omega)
      subst hvs
      have hrc := rowCond_some_summary pyLower q hq hp hu p v
      have hcm := claimMatchCond_of_one V q p v hfil
      by_cases hb : (isSubstr q.data p.name.data
          || isSubstr q.data p.category.data
          || (isSubstr q.data v.summary.data
              || isSubstr q.data v.mood_tags.data
              || isSubstr q.data v.key_themes.data)) = true
      · rw [show (match [v] with
              | [] => [(p, (none : Option VibeRow))]
              | vs => vs.map (fun v => (p, some v))) = [(p, some v)] from rfl,
          List.filter_cons_of_pos (by rw [hrc]; exact hb), hcm, if_pos hb]
        rfl
      · rw [show (match [v] with
              | [] => [(p, (none : Option VibeRow))]
              | vs => vs.map (fun v => (p, some v))) = [(p, some v)] from rfl,
          List.filter_cons_of_neg (by rw [hrc]; exact hb), hcm, if_neg hb]
        rfl

/-- **C6, counterexample** — the query string is spliced into the `LIKE`
pattern unescaped, so `%` in it acts as a wildcard: searching `"a%b"` returns
the place named `"axb"` although `"a%b"` is not a substring of any of its
fields, so the result set differs from the claim's substring semantics.
Query and data are pure ASCII, where Python's `str.lower()` coincides with
the ASCII fold passed for `pyLower`. -/
theorem search_like_wildcard_cex :
    search_places Char.toLower
        ⟨[⟨1, "axb", "Pune", "cafe", none, none, none⟩], [], []⟩ "a%b" none
      ≠ claimSearchMatches ⟨[⟨1, "axb", "Pune", "cafe", none, none, none⟩], [], []⟩ "a%b" := by
  decide

/-- **C6, amended** — for every reachable state and every query that contains
no SQL `LIKE` wildcard (`%` or `_`) and only ASCII characters,
`GET /search/?query=Y` returns exactly the places for which the query occurs,
up to ASCII letter case, as a substring of the name or category, or of the
associated summary row's summary text or serialized tag lists; a place with
no summary row can match only on name or category.  The statement holds for
every Unicode lowering `pyLower` that agrees with the ASCII fold on ASCII
input, which Python's `str.lower()` does. -/
theorem search_places_wildcardfree (pyLower : Char → Char) (db : DB) (q : String)
    (h : Reachable db)
    (hpy : ∀ c : Char, c.toNat < 128 → pyLower c = c.toLower)
    (hascii : ∀ c ∈ q.data, c.toNat < 128)
    (hpq : '%' ∉ q.data) (huq : '_' ∉ q.data) :
    search_places pyLower db q none = claimSearchMatches db q := by
  have hq : ∀ c ∈ q.data, (pyLower c).toLower = c.toLower := by
    intro c hc
    rw [hpy c (hascii c hc), toLower_toLower]
  have hp : '%' ∉ q.data.map pyLower := by
    intro hmem
    obtain ⟨c, hc, hce⟩ := List.mem_map.mp hmem
    rw [hpy c (hascii c hc)] at hce
    exact hpq (toLower_eq_pct c hce ▸ hc)
  have hu : '_' ∉ q.data.map pyLower := by
    intro hmem
    obtain ⟨c, hc, hce⟩ := List.mem_map.mp hmem
    rw [hpy c (hascii c hc)] at hce
    exact huq (toLower_eq_underscore c hce ▸ hc)
  have hone := (reachable_inv db h).2.1
  obtain ⟨P, R, V⟩ := db
  exact search_claim_aux pyLower V R q hone hq hp hu P

/-- Witness for `search_places_wildcardfree` at a concrete input. -/
theorem search_places_wildcardfree_witness :
    search_places Char.toLower ⟨[], [], []⟩ "cozy" none
      = claimSearchMatches ⟨[], [], []⟩ "cozy" :=
  search_places_wildcardfree Char.toLower ⟨[], [], []⟩ "cozy" Reachable.init
    (fun _ _ => rfl) (by decide) (by decide) (by decide)
